import Mathlib

/-!
Shallow embedding of the `structopt` Go package (files `doc.go`,
`structopt.go`).  The package binds fields of a tagged configuration
struct to struct defaults, environment variables and command-line flags.

Modelling conventions:

* A configuration struct is a `List Field`; a field records its `opt` tag,
  whether it is settable (exported), and its current value (`GoVal`, one
  constructor per case of the type switch in `option.set`).
* The field pointer captured by `inferOptions` (`unsafe.Pointer`) is
  modelled as the field's index into that list.
* `strconv.ParseBool`, `strconv.Atoi`, `strconv.ParseInt` and
  `strconv.ParseUint` (base 10, bit size 64) are modelled exactly,
  including Go's clamped results on range errors.
* `strconv.ParseFloat`, `time.ParseDuration`, `url.Parse` and the `Set`
  method of a user-defined `flag.Value` are external collaborators whose
  exact numeric behaviour the claims do not depend on; following the
  spec's design note they are injected as components of `Collab`.
  Float64 values are carried opaquely.
* `os.Getenv` is the injected `Collab.env` (absent variables read as ""),
  and `flag.FlagSet.Parse` is modelled at the collaborator boundary as a
  list of already-split `(flagName, argumentText)` assignments applied to
  the registered flags in order.
* Go's error values are modelled structurally (`GoError`, `BaseErr`,
  `NumError`) so that theorems can speak about which variable/value/
  underlying error an error wraps.  A nil-pointer dereference panic is a
  distinct outcome (`LoadResult.panicked`), not an error.
-/

namespace Structopt

/-- Opaque carrier for a Go `float64`; the engine never inspects it. -/
structure Float64 where
  bits : Nat
  deriving DecidableEq

/-- Opaque carrier for a parsed `url.URL` value. -/
structure URLv where
  raw : String
  deriving DecidableEq

/-- The two sentinel errors of Go's `strconv` package. -/
inductive StrconvErr where
  | syn
  | range
  deriving DecidableEq

/-- Go's `strconv.NumError`: function name, offending numeral, sentinel. -/
structure NumError where
  fn : String
  num : String
  err : StrconvErr
  deriving DecidableEq

/-- An underlying parser error, as wrapped by `option.set`'s `%w`. -/
inductive BaseErr where
  | num (ne : NumError)
  | other (msg : String)
  deriving DecidableEq

/-- A field value, one constructor per case of the type switch in
`option.set` (in source order), plus `vunsup` for the default case. -/
inductive GoVal where
  | vstr (s : String)
  | vbool (b : Bool)
  | vint (n : Int)
  | vuint64 (n : Nat)
  | vint64 (n : Int)
  | vfloat64 (x : Float64)
  | vdur (ns : Int)
  | vurl (u : URLv)
  | vvalue (st : String)
  | vunsup (typeName : String)
  deriving DecidableEq

/-- One struct field: its `opt` tag (`""` = no tag), whether reflection
can set it (exported), and its current value. -/
structure Field where
  tag : String
  settable : Bool
  val : GoVal
  deriving DecidableEq

/-- The `config interface{}` argument of `Load`, collapsed to the three
shapes the reflection check in `inferOptions` distinguishes. -/
inductive ConfigArg where
  | ptrStruct (typeName : String) (fields : List Field)
  | nonPtrStruct (typeName : String) (fields : List Field)
  | other (typeName : String)
  deriving DecidableEq

/-- Fields reachable through the config argument (empty when the argument
has none, e.g. a nil or non-struct pointer). -/
def ConfigArg.fieldsOf : ConfigArg → List Field
  | .ptrStruct _ fs => fs
  | .nonPtrStruct _ fs => fs
  | .other _ => []

/-- The `option` struct: field pointer (modelled as index), derived
environment variable name, flag name and flag description. -/
structure Opt where
  idx : Nat
  envVar : String
  flagName : String
  flagDesc : String
  deriving DecidableEq

/-- Which typed registration `option.set` performed on the `FlagSet`
(StringVar, BoolVar, ..., or `Var` for url/value). -/
inductive RegKind where
  | rstr
  | rbool
  | rint
  | ruint64
  | rint64
  | rfloat64
  | rdur
  | rurl
  | rval
  deriving DecidableEq

/-- One flag registered on the `FlagSet`: its name, the index of the
field it writes through to, and its kind. -/
structure Reg where
  name : String
  idx : Nat
  kind : RegKind
  deriving DecidableEq

/-- Errors returned by the package, modelled structurally:
`configShape` is "config must be a pointer to struct, got T";
`unsupportedType` is "unsupported field type: T";
`parseError` is "parse error VAR=\x22VALUE\x22: WRAPPED";
the last two model errors of `flag.FlagSet.Parse`. -/
inductive GoError where
  | configShape (typeName : String)
  | unsupportedType (typeName : String)
  | parseError (envVar value : String) (wrapped : BaseErr)
  | flagNotDefined (name : String)
  | invalidFlagValue (name value : String) (wrapped : BaseErr)
  deriving DecidableEq

/-- Injected parser collaborators whose numeric behaviour is outside
this model: `strconv.ParseFloat`, `time.ParseDuration`, `url.Parse`,
and the `Set` method of a user-defined `flag.Value` (taking the value's
current state and the text).  `url.Parse` returns a nil pointer exactly
when it returns an error, modelled by `Except`. -/
structure Parsers where
  parseFloat : String → Float64 × Option BaseErr
  parseDuration : String → Int × Option BaseErr
  parseURL : String → Except BaseErr URLv
  customSet : String → String → String × Option BaseErr

/-- The remaining injected collaborators of `Load`: the process
environment (`os.Getenv`; absent variables read as `""`), the process
argument list (already split into flag assignments), and the parsers. -/
structure Collab where
  env : String → String
  args : List (String × String)
  ps : Parsers

/-! ### Models of `strings` and `strconv` (Go standard library) -/

/-- Code points for which Go's `unicode.IsSpace` is true. -/
def goSpaceRunes : List Nat :=
  [0x09, 0x0A, 0x0B, 0x0C, 0x0D, 0x20, 0x85, 0xA0, 0x1680,
   0x2000, 0x2001, 0x2002, 0x2003, 0x2004, 0x2005, 0x2006, 0x2007,
   0x2008, 0x2009, 0x200A, 0x2028, 0x2029, 0x202F, 0x205F, 0x3000]

/-- Go `unicode.IsSpace`. -/
def goIsSpace (ch : Char) : Bool :=
  goSpaceRunes.contains ch.toNat

/-- Go `strings.TrimSpace`. -/
def trimSpace (s : String) : String :=
  String.mk (((s.toList.dropWhile goIsSpace).reverse.dropWhile goIsSpace).reverse)

/-- Go `strings.ToUpper`, restricted to ASCII letters (tags are ASCII). -/
def goToUpper (s : String) : String :=
  String.mk (s.toList.map Char.toUpper)

/-- Go `strconv.ParseBool`. -/
def parseBool (s : String) : Bool × Option NumError :=
  match s with
  | "1" | "t" | "T" | "true" | "TRUE" | "True" => (true, none)
  | "0" | "f" | "F" | "false" | "FALSE" | "False" => (false, none)
  | _ => (false, some ⟨"ParseBool", s, .syn⟩)

/-- Largest Go `uint64`. -/
def maxUint64 : Nat := 2 ^ 64 - 1

/-- Overflow cutoff used by `strconv.ParseUint` for base 10. -/
def cutoffUint64 : Nat := maxUint64 / 10 + 1

/-- Digit loop of Go `strconv.ParseUint(s, 10, 64)`: a non-digit stops
with `(0, ErrSyntax)`, overflow stops with `(maxUint64, ErrRange)`. -/
def parseUintLoop (num : String) : List Char → Nat → Nat × Option NumError
  | [], n => (n, none)
  | ch :: rest, n =>
    if ch.isDigit then
      let d := ch.toNat - 48
      if n ≥ cutoffUint64 then (maxUint64, some ⟨"ParseUint", num, .range⟩)
      else
        let n1 := n * 10 + d
        if n1 > maxUint64 then (maxUint64, some ⟨"ParseUint", num, .range⟩)
        else parseUintLoop num rest n1
    else (0, some ⟨"ParseUint", num, .syn⟩)

/-- Go `strconv.ParseUint(s, 10, 64)`. -/
def parseUint64 (s : String) : Nat × Option NumError :=
  if s = "" then (0, some ⟨"ParseUint", s, .syn⟩)
  else parseUintLoop s s.toList 0

/-- Signed overflow cutoff (`1 << 63`) used by `strconv.ParseInt`. -/
def cutoffInt64 : Nat := 2 ^ 63

/-- Go `strconv.ParseInt(s, 10, 64)`: strips an optional sign, runs the
unsigned loop, and clamps to `maxInt64`/`minInt64` on range errors. -/
def parseInt64 (s : String) : Int × Option NumError :=
  if s = "" then (0, some ⟨"ParseInt", s, .syn⟩)
  else
    let (neg, digits) :=
      match s.toList with
      | '+' :: cs => (false, cs)
      | '-' :: cs => (true, cs)
      | cs => (false, cs)
    let (un, e) :=
      if digits.isEmpty then ((0 : Nat), some (NumError.mk "ParseUint" s .syn))
      else parseUintLoop s digits 0
    match e with
    | some ne =>
      if ne.err = .syn then (0, some ⟨"ParseInt", s, .syn⟩)
      else if neg then (-(Int.ofNat cutoffInt64), some ⟨"ParseInt", s, .range⟩)
      else (Int.ofNat (cutoffInt64 - 1), some ⟨"ParseInt", s, .range⟩)
    | none =>
      if neg = false ∧ un ≥ cutoffInt64 then
        (Int.ofNat (cutoffInt64 - 1), some ⟨"ParseInt", s, .range⟩)
      else if neg ∧ un > cutoffInt64 then
        (-(Int.ofNat cutoffInt64), some ⟨"ParseInt", s, .range⟩)
      else (if neg then -(Int.ofNat un) else Int.ofNat un, none)

/-- Go `strconv.Atoi` on a 64-bit platform: same value as
`ParseInt(s, 10, 64)`, with the error relabelled to `Atoi`. -/
def atoi (s : String) : Int × Option NumError :=
  let (n, e) := parseInt64 s
  (n, e.map (fun ne => ⟨"Atoi", ne.num, ne.err⟩))

/-! ### The engine: `inferOptions`, `option.set`, `Load` -/

/-- The separator characters the source intends to replace in tags. -/
def flagSeps : String := ".-"

/-- The separator used in environment variable names. -/
def envSep : String := "_"

/-- Environment-name normalization of a tag as the source actually
performs it: `envVar := strings.ToUpper(tag)` followed by a loop calling
`strings.ReplaceAll(envVar, string(sep), envSep)` for each `sep` in
`flagSeps` whose result is discarded (`ReplaceAll` is pure and the
returned string is never assigned), so the separators survive. -/
def normalizeTag (tag : String) : String :=
  goToUpper tag

/-- Field loop of `inferOptions`, carrying the field index `i`:
unsettable fields and fields with an empty `opt` tag are skipped. -/
def inferOpts (pfx : String) : List Field → Nat → List Opt
  | [], _ => []
  | f :: rest, i =>
    if f.settable = false then inferOpts pfx rest (i + 1)
    else if f.tag = "" then inferOpts pfx rest (i + 1)
    else ⟨i, pfx ++ envSep ++ normalizeTag f.tag, f.tag, ""⟩ :: inferOpts pfx rest (i + 1)

/-- Go `inferOptions`: the reflection shape check, then the field loop. -/
def inferOptions (pfx : String) (config : ConfigArg) : Except GoError (List Opt) :=
  match config with
  | .ptrStruct _ flds => .ok (inferOpts pfx flds 0)
  | .nonPtrStruct tn _ => .error (.configShape tn)
  | .other tn => .error (.configShape tn)

/-- Read a field value by index (indices produced by `inferOpts` are
always in range; the out-of-range fallback is never hit by the engine). -/
def getVal : List Field → Nat → GoVal
  | [], _ => .vstr ""
  | f :: _, 0 => f.val
  | _ :: rest, n + 1 => getVal rest n

/-- Write a field value by index. -/
def setVal : List Field → Nat → GoVal → List Field
  | [], _, _ => []
  | f :: rest, 0, v => ⟨f.tag, f.settable, v⟩ :: rest
  | f :: rest, n + 1, v => f :: setVal rest n v

/-- Outcome of one arm of the type switch in `option.set`: the default
arm returns an unsupported-type error; the `url.URL` arm dereferences
the nil pointer returned by a failed `url.Parse` (`*up = *u`), a panic;
every other arm yields the value written to the field, the parse error
that Go's multi-assignment left in `err`, and the flag registration
performed. -/
inductive SetStep where
  | unsupported (typeName : String)
  | panicked
  | stepped (v : GoVal) (e : Option BaseErr) (rk : RegKind)
  deriving DecidableEq

/-- The type switch of `option.set`, case by case in source order.  Note
that each parsing arm writes the parser's result into the field
unconditionally (`*p, err = parse(fromEnv)`), error or not. -/
def setStep (p : Parsers) (v : GoVal) (fromEnv : String) : SetStep :=
  match v with
  | .vstr _ => .stepped (.vstr fromEnv) none .rstr
  | .vbool _ =>
    let (b, e) := parseBool fromEnv
    .stepped (.vbool b) (e.map .num) .rbool
  | .vint _ =>
    let (n, e) := atoi fromEnv
    .stepped (.vint n) (e.map .num) .rint
  | .vuint64 _ =>
    let (n, e) := parseUint64 fromEnv
    .stepped (.vuint64 n) (e.map .num) .ruint64
  | .vint64 _ =>
    let (n, e) := parseInt64 fromEnv
    .stepped (.vint64 n) (e.map .num) .rint64
  | .vfloat64 _ =>
    let (x, e) := p.parseFloat fromEnv
    .stepped (.vfloat64 x) e .rfloat64
  | .vdur _ =>
    let (d, e) := p.parseDuration fromEnv
    .stepped (.vdur d) e .rdur
  | .vurl _ =>
    match p.parseURL fromEnv with
    | .error _ => .panicked
    | .ok u => .stepped (.vurl u) none .rurl
  | .vvalue st =>
    let (st', e) := p.customSet st fromEnv
    .stepped (.vvalue st') e .rval
  | .vunsup tn => .unsupported tn

/-- Result of `option.set` on one descriptor: on success the updated
fields plus the registration added to the `FlagSet`; on error the fields
as the method left them (no rollback); a panic keeps the fields from
before the failed write. -/
inductive SetResult where
  | ok (fields : List Field) (reg : Reg)
  | err (e : GoError) (fields : List Field)
  | panicked (fields : List Field)
  deriving DecidableEq

/-- Go `option.set`: read the environment variable, run the type-switch
arm, and return the parse error only when the environment text is
non-empty after trimming whitespace.  The field write and the flag
registration both happen before that check. -/
def optSet (envf : String → String) (p : Parsers) (fields : List Field) (o : Opt) :
    SetResult :=
  let fromEnv := envf o.envVar
  match setStep p (getVal fields o.idx) fromEnv with
  | .unsupported tn => .err (.unsupportedType tn) fields
  | .panicked => .panicked fields
  | .stepped v' e rk =>
    let fields' := setVal fields o.idx v'
    match e with
    | some be =>
      if trimSpace fromEnv ≠ "" then .err (.parseError o.envVar fromEnv be) fields'
      else .ok fields' ⟨o.flagName, o.idx, rk⟩
    | none => .ok fields' ⟨o.flagName, o.idx, rk⟩

/-- Result of applying a list of descriptors in order. -/
inductive ApplyResult where
  | ok (fields : List Field) (regs : List Reg)
  | err (e : GoError) (fields : List Field)
  | panicked (fields : List Field)
  deriving DecidableEq

/-- The descriptor loop of `Load`: apply each option in order, stopping
at the first error (fields already applied stay applied). -/
def applyOpts (envf : String → String) (p : Parsers) (fields : List Field)
    (regs : List Reg) : List Opt → ApplyResult
  | [] => .ok fields regs
  | o :: rest =>
    match optSet envf p fields o with
    | .ok fields' r => applyOpts envf p fields' (regs ++ [r]) rest
    | .err e fields' => .err e fields'
    | .panicked fields' => .panicked fields'

/-- How a registered flag's `Set` reacts to an argument text, per kind.
The primitive kinds mirror the `flag` package's values, which write the
parsed result and report the parse error; `rurl` is this package's
`urlValue.Set`, which leaves the field untouched on a parse error;
`rval` is the user value's own `Set`.  (The `rval` fallback arm is
unreachable: `rval` registrations always point at `vvalue` fields.) -/
def regStep (p : Parsers) (rk : RegKind) (cur : GoVal) (text : String) :
    GoVal × Option BaseErr :=
  match rk with
  | .rstr => (.vstr text, none)
  | .rbool =>
    let (b, e) := parseBool text
    (.vbool b, e.map .num)
  | .rint =>
    let (n, e) := atoi text
    (.vint n, e.map .num)
  | .ruint64 =>
    let (n, e) := parseUint64 text
    (.vuint64 n, e.map .num)
  | .rint64 =>
    let (n, e) := parseInt64 text
    (.vint64 n, e.map .num)
  | .rfloat64 =>
    let (x, e) := p.parseFloat text
    (.vfloat64 x, e)
  | .rdur =>
    let (d, e) := p.parseDuration text
    (.vdur d, e)
  | .rurl =>
    match p.parseURL text with
    | .error e => (cur, some e)
    | .ok u => (.vurl u, none)
  | .rval =>
    match cur with
    | .vvalue st =>
      let (st', e) := p.customSet st text
      (.vvalue st', e)
    | _ => (cur, none)

/-- Collaborator model of `flag.FlagSet.Parse` over already-split flag
assignments: an unknown flag name or a failing `Set` aborts with an
error (carrying the fields as mutated so far). -/
def fsParse (p : Parsers) (regs : List Reg) (fields : List Field) :
    List (String × String) → Except (GoError × List Field) (List Field)
  | [] => .ok fields
  | (name, text) :: rest =>
    match regs.find? (fun r => r.name == name) with
    | none => .error (.flagNotDefined name, fields)
    | some r =>
      match regStep p r.kind (getVal fields r.idx) text with
      | (v', none) => fsParse p regs (setVal fields r.idx v') rest
      | (v', some e) => .error (.invalidFlagValue r.name text e, setVal fields r.idx v')

/-- Final outcome of `Load`: success with the mutated fields and the
registrations made on the `FlagSet`; an error with the fields as they
were when it was returned; or a runtime panic. -/
inductive LoadResult where
  | ok (fields : List Field) (regs : List Reg)
  | err (e : GoError) (fields : List Field)
  | panicked (fields : List Field)
  deriving DecidableEq

/-- Go `Load`: infer the options, apply each against the caller's
`FlagSet` (or a throwaway one when `hasFlags` is false, i.e. the caller
passed nil), then — only when the caller supplied a `FlagSet` — parse
the process arguments. -/
def Load (pfx : String) (config : ConfigArg) (c : Collab) (hasFlags : Bool) :
    LoadResult :=
  match inferOptions pfx config with
  | .error e => .err e config.fieldsOf
  | .ok opts =>
    match applyOpts c.env c.ps config.fieldsOf [] opts with
    | .err e fs => .err e fs
    | .panicked fs => .panicked fs
    | .ok fs regs =>
      if hasFlags then
        match fsParse c.ps regs fs c.args with
        | .error (e, fs') => .err e fs'
        | .ok fs' => .ok fs' regs
      else .ok fs regs

/-! ### Concrete collaborator instances for witnesses

These mirror the repository's own tests: the environment pairs of
`TestEnv`/`TestFlags`, and parser stand-ins that agree with
`time.ParseDuration`, `url.Parse` and `macAddr.Set` on the inputs the
witnesses exercise (`url.Parse(":foo")` really fails with "missing
protocol scheme"; `time.ParseDuration("1s")` really is 1e9 ns). -/

/-- Environment lookup over a finite list of pairs; absent keys read as
the empty string, exactly like `os.Getenv`. -/
def lookupEnv (pairs : List (String × String)) : String → String :=
  fun k => ((pairs.find? (fun pr => pr.1 == k)).map Prod.snd).getD ""

/-- Stand-in for `strconv.ParseFloat` on the witness inputs. -/
def testFloat (s : String) : Float64 × Option BaseErr :=
  if s = "1.2" then (⟨1⟩, none)
  else if s = "2.4" then (⟨2⟩, none)
  else (⟨0⟩, some (.other "invalid syntax"))

/-- Stand-in for `time.ParseDuration` on the witness inputs (the error
case returns 0, as `time.ParseDuration` always does). -/
def testDur (s : String) : Int × Option BaseErr :=
  if s = "1s" then (1000000000, none)
  else if s = "2s" then (2000000000, none)
  else (0, some (.other "time: invalid duration"))

/-- Stand-in for `url.Parse` on the witness inputs: `":foo"` fails with
"missing protocol scheme" (a nil `*url.URL` in Go), everything else
parses. -/
def testURL (s : String) : Except BaseErr URLv :=
  if s = ":foo" then .error (.other "missing protocol scheme")
  else .ok ⟨s⟩

/-- Stand-in for the `Set` method of the tests' `macAddr` flag value:
parse failure leaves the receiver unchanged and returns the error. -/
def testSet (st s : String) : String × Option BaseErr :=
  if s = "aa:bb:cc:dd:ee:ff" ∨ s = "ff:ee:dd:cc:bb:aa" then (s, none)
  else (st, some (.other "invalid MAC address"))

/-- The bundled witness parsers. -/
def testParsers : Parsers :=
  ⟨testFloat, testDur, testURL, testSet⟩

/-- Convenience constructor for a witness collaborator. -/
def mkCollab (envPairs args : List (String × String)) : Collab :=
  ⟨lookupEnv envPairs, args, testParsers⟩

/-- The six primitive kinds `option.set` parses with a `strconv` or
`time` parser (everything except string, url and custom values). -/
def isStrconvKind : GoVal → Bool
  | .vbool _ => true
  | .vint _ => true
  | .vuint64 _ => true
  | .vint64 _ => true
  | .vfloat64 _ => true
  | .vdur _ => true
  | _ => false

/-! ### Helper lemmas -/

/-- Writing one field leaves every other index unchanged. -/
theorem getVal_setVal_ne : ∀ (fs : List Field) (i j : Nat) (v : GoVal),
    j ≠ i → getVal (setVal fs i v) j = getVal fs j := by
  intro fs
  induction fs with
  | nil => intro i j v _; cases i <;> rfl
  | cons f rest ih =>
    intro i j v hne
    cases i with
    | zero =>
      cases j with
      | zero => exact absurd rfl hne
      | succ k => rfl
    | succ n =>
      cases j with
      | zero => rfl
      | succ k => exact ih n k v (fun h => hne (by omega))

/-- A successful `option.set` registers the flag under the descriptor's
flag name, backed by the descriptor's field. -/
theorem optSet_ok_reg {envf p fields o fields' r}
    (h : optSet envf p fields o = .ok fields' r) :
    r.name = o.flagName ∧ r.idx = o.idx := by
  simp only [optSet] at h
  split at h
  · exact absurd h (by simp)
  · exact absurd h (by simp)
  · split at h
    · split at h
      · exact absurd h (by simp)
      · obtain ⟨-, h2⟩ := SetResult.ok.inj h
        exact ⟨congrArg Reg.name h2.symm, congrArg Reg.idx h2.symm⟩
    · obtain ⟨-, h2⟩ := SetResult.ok.inj h
      exact ⟨congrArg Reg.name h2.symm, congrArg Reg.idx h2.symm⟩

/-- A failing `option.set` only ever touches the descriptor's own
field. -/
theorem optSet_err_frame {envf p fields o e fields'}
    (h : optSet envf p fields o = .err e fields') :
    ∀ j, j ≠ o.idx → getVal fields' j = getVal fields j := by
  intro j hj
  simp only [optSet] at h
  split at h
  · obtain ⟨-, h2⟩ := SetResult.err.inj h
    rw [← h2]
  · exact absurd h (by simp)
  · split at h
    · split at h
      · obtain ⟨-, h2⟩ := SetResult.err.inj h
        rw [← h2]
        exact getVal_setVal_ne _ _ _ _ hj
      · exact absurd h (by simp)
    · exact absurd h (by simp)

/-- If a prefix of the descriptor list applies cleanly, running the
whole list first runs that prefix and continues from its result. -/
theorem applyOpts_append_ok {envf p} : ∀ (l₁ : List Opt) {l₂ fields regs fs rs},
    applyOpts envf p fields regs l₁ = .ok fs rs →
    applyOpts envf p fields regs (l₁ ++ l₂) = applyOpts envf p fs rs l₂ := by
  intro l₁
  induction l₁ with
  | nil =>
    intro l₂ fields regs fs rs h
    obtain ⟨h1, h2⟩ := ApplyResult.ok.inj h
    rw [List.nil_append, h1, h2]
  | cons o rest ih =>
    intro l₂ fields regs fs rs h
    unfold applyOpts at h
    split at h
    · rename_i fields' r hopt
      rw [List.cons_append]
      simp only [applyOpts]
      rw [hopt]
      exact ih h
    · exact absurd h (by simp)
    · exact absurd h (by simp)

/-- A clean pass over a descriptor list registers exactly one flag per
descriptor, in order, named after each descriptor's flag name and backed
by its field. -/
theorem applyOpts_ok_regs {envf p} : ∀ (opts : List Opt) {fields regs fs rs},
    applyOpts envf p fields regs opts = .ok fs rs →
    rs.map (fun r => (r.name, r.idx)) =
      regs.map (fun r => (r.name, r.idx)) ++ opts.map (fun o => (o.flagName, o.idx)) := by
  intro opts
  induction opts with
  | nil =>
    intro fields regs fs rs h
    obtain ⟨-, h2⟩ := ApplyResult.ok.inj h
    rw [← h2, List.map_nil, List.append_nil]
  | cons o rest ih =>
    intro fields regs fs rs h
    unfold applyOpts at h
    split at h
    · rename_i fields' r hopt
      obtain ⟨hn, hi⟩ := optSet_ok_reg hopt
      rw [ih h, List.map_append, List.map_cons, List.map_nil, List.map_cons,
        List.append_assoc, List.singleton_append, hn, hi]
    · exact absurd h (by simp)
    · exact absurd h (by simp)

/-- Every descriptor produced by the introspection loop points at a
settable field carrying a non-empty tag. -/
theorem inferOpts_mem {pfx} : ∀ (flds : List Field) (i : Nat) (o : Opt),
    o ∈ inferOpts pfx flds i →
    i ≤ o.idx ∧ ∃ f, flds.get? (o.idx - i) = some f ∧ f.settable = true ∧ f.tag ≠ "" := by
  intro flds
  induction flds with
  | nil => intro i o h; exact absurd h (by simp [inferOpts])
  | cons f rest ih =>
    intro i o h
    unfold inferOpts at h
    split at h
    · obtain ⟨h1, f', h2, h3⟩ := ih (i + 1) o h
      refine ⟨by omega, f', ?_, h3⟩
      have : o.idx - i = (o.idx - (i + 1)) + 1 := by omega
      rw [this, List.get?_cons_succ, h2]
    · split at h
      · obtain ⟨h1, f', h2, h3⟩ := ih (i + 1) o h
        refine ⟨by omega, f', ?_, h3⟩
        have : o.idx - i = (o.idx - (i + 1)) + 1 := by omega
        rw [this, List.get?_cons_succ, h2]
      · rename_i hset htag
        rcases List.mem_cons.mp h with hhd | htl
        · subst hhd
          refine ⟨Nat.le_refl i, f, ?_, by simpa using hset, htag⟩
          simp
        · obtain ⟨h1, f', h2, h3⟩ := ih (i + 1) o htl
          refine ⟨by omega, f', ?_, h3⟩
          have : o.idx - i = (o.idx - (i + 1)) + 1 := by omega
          rw [this, List.get?_cons_succ, h2]

/-- A record none of whose fields is both settable and tagged yields an
empty descriptor list. -/
theorem inferOpts_none {pfx} : ∀ (flds : List Field) (i : Nat),
    (∀ f ∈ flds, f.settable = false ∨ f.tag = "") → inferOpts pfx flds i = [] := by
  intro flds
  induction flds with
  | nil => intro i _; rfl
  | cons f rest ih =>
    intro i h
    unfold inferOpts
    rcases h f (List.mem_cons_self f rest) with hs | ht
    · rw [if_pos hs]
      exact ih (i + 1) (fun g hg => h g (List.mem_cons_of_mem f hg))
    · by_cases hs : f.settable = false
      · rw [if_pos hs]
        exact ih (i + 1) (fun g hg => h g (List.mem_cons_of_mem f hg))
      · rw [if_neg hs, if_pos ht]
        exact ih (i + 1) (fun g hg => h g (List.mem_cons_of_mem f hg))

/-! ### The claims -/

/-- Claim C1 (refuted — code-bug evidence): with an `opt`-tagged int
field defaulting to 5 and its environment variable set to `""` (the
same reading `os.Getenv` gives when the variable is unset) or to the
whitespace-only `" "`, `Load` indeed returns no error, but the field
does not retain its struct default: `*ip, err = strconv.Atoi(fromEnv)`
has already overwritten it with the parser's zero result before the
error is suppressed. -/
theorem c1_empty_env_overwrites_default :
    Load "APP" (.ptrStruct "main.Config" [⟨"n", true, .vint 5⟩]) (mkCollab [] []) false
      = .ok [⟨"n", true, .vint 0⟩] [⟨"n", 0, .rint⟩]
    ∧ Load "APP" (.ptrStruct "main.Config" [⟨"n", true, .vint 5⟩])
        (mkCollab [("APP_N", " ")] []) false
      = .ok [⟨"n", true, .vint 0⟩] [⟨"n", 0, .rint⟩]
    ∧ GoVal.vint 0 ≠ GoVal.vint 5 :=
  ⟨rfl, rfl, by decide⟩

/-- Claim C2 (refuted — code-bug evidence): for prefix `APP` and tag
`query.timeout` the derived environment variable name is
`APP_QUERY.TIMEOUT`, not the documented `APP_QUERY_TIMEOUT`: the
`strings.ReplaceAll` result in `inferOptions` is discarded, so `.` and
`-` survive. -/
theorem c2_separator_replacement_discarded :
    inferOptions "APP" (.ptrStruct "main.Config" [⟨"query.timeout", true, .vdur 0⟩])
      = .ok [⟨0, "APP_QUERY.TIMEOUT", "query.timeout", ""⟩]
    ∧ "APP_QUERY.TIMEOUT" ≠ "APP_QUERY_TIMEOUT" :=
  ⟨rfl, by decide⟩

/-- Claim C4 (refuted — code-bug evidence): for a `url.URL` field whose
environment variable holds the non-empty, non-whitespace invalid text
`":foo"` (on which `url.Parse` fails, returning a nil pointer), `Load`
does not return an error: `*up = *u` dereferences the nil pointer and
panics before the error check is reached. -/
theorem c4_invalid_url_env_panics :
    Load "APP" (.ptrStruct "main.Config" [⟨"u", true, .vurl ⟨""⟩⟩])
      (mkCollab [("APP_U", ":foo")] []) false
      = .panicked [⟨"u", true, .vurl ⟨""⟩⟩] :=
  rfl

/-- Claim C6: for every argument that is not a pointer to a struct —
a struct passed by value, or anything else (nil, pointer to non-struct)
— `Load` returns the shape error naming the offending type, does not
panic, and returns before any field is read or written (the fields come
back exactly as passed). -/
theorem c6_config_shape_error (pfx tn : String) (flds : List Field) (c : Collab)
    (hasFlags : Bool) :
    Load pfx (.nonPtrStruct tn flds) c hasFlags = .err (.configShape tn) flds
    ∧ Load pfx (.other tn) c hasFlags = .err (.configShape tn) [] :=
  ⟨rfl, rfl⟩

/-- Claim C3: for every supported field kind (any `v` on which the
dispatch succeeds), given struct default `v` and a non-empty valid
environment value `E` and no flag argument, the resolved field value is
the parse of `E`; and given additionally a valid flag argument `F` for
the same field, the resolved value is the parse of `F` — the flag wins
over the environment. -/
theorem c3_precedence (pfx tag tn E F : String) (v vE vF : GoVal) (rk : RegKind)
    (envf : String → String) (p : Parsers)
    (htag : tag ≠ "") (_hE : E ≠ "")
    (henv : envf (pfx ++ envSep ++ normalizeTag tag) = E)
    (hstep : setStep p v E = .stepped vE none rk)
    (hflag : regStep p rk vE F = (vF, none)) :
    Load pfx (.ptrStruct tn [⟨tag, true, v⟩]) ⟨envf, [], p⟩ false
      = .ok [⟨tag, true, vE⟩] [⟨tag, 0, rk⟩]
    ∧ Load pfx (.ptrStruct tn [⟨tag, true, v⟩]) ⟨envf, [(tag, F)], p⟩ true
      = .ok [⟨tag, true, vF⟩] [⟨tag, 0, rk⟩] := by
  have hopts : inferOpts pfx [⟨tag, true, v⟩] 0
      = [⟨0, pfx ++ envSep ++ normalizeTag tag, tag, ""⟩] := by
    simp [inferOpts, htag]
  have hset : optSet envf p [⟨tag, true, v⟩] ⟨0, pfx ++ envSep ++ normalizeTag tag, tag, ""⟩
      = .ok [⟨tag, true, vE⟩] ⟨tag, 0, rk⟩ := by
    simp only [optSet, getVal, henv, hstep, setVal]
  constructor
  · simp only [Load, inferOptions, ConfigArg.fieldsOf, hopts, applyOpts, hset,
      List.nil_append, Bool.false_eq_true, if_false]
  · simp only [Load, inferOptions, ConfigArg.fieldsOf, hopts, applyOpts, hset,
      List.nil_append, if_true, fsParse, List.find?, beq_self_eq_true, getVal,
      hflag, setVal]

/-- Witness for C3 at the int kind, mirroring `TestEnv`/`TestFlags`:
default 5, `APP_INT=25`, flag argument `-int 50`. -/
theorem c3_precedence_witness :
    Load "APP" (.ptrStruct "main.Config" [⟨"int", true, .vint 5⟩])
      ⟨lookupEnv [("APP_INT", "25")], [], testParsers⟩ false
      = .ok [⟨"int", true, .vint 25⟩] [⟨"int", 0, .rint⟩]
    ∧ Load "APP" (.ptrStruct "main.Config" [⟨"int", true, .vint 5⟩])
      ⟨lookupEnv [("APP_INT", "25")], [("int", "50")], testParsers⟩ true
      = .ok [⟨"int", true, .vint 50⟩] [⟨"int", 0, .rint⟩] :=
  c3_precedence "APP" "int" "main.Config" "25" "50" (.vint 5) (.vint 25) (.vint 50)
    .rint (lookupEnv [("APP_INT", "25")]) testParsers
    (by decide) (by decide) (by decide) (by decide) (by decide)

/-- Claim C5: a tagged, settable field of an unsupported type makes
`Load` return the error naming the type — for every environment and
argument list, so also when no variable or flag is supplied for it —
provided the descriptors before it applied cleanly (all other fields
valid). -/
theorem c5_unsupported_type_fails (pfx tn T : String) (envf : String → String)
    (p : Parsers) (args : List (String × String)) (hasFlags : Bool)
    (flds fs₁ : List Field) (rs₁ : List Reg) (opts₁ opts₂ : List Opt) (o : Opt)
    (hsplit : inferOpts pfx flds 0 = opts₁ ++ o :: opts₂)
    (hok : applyOpts envf p flds [] opts₁ = .ok fs₁ rs₁)
    (hunsup : getVal fs₁ o.idx = .vunsup T) :
    Load pfx (.ptrStruct tn flds) ⟨envf, args, p⟩ hasFlags
      = .err (.unsupportedType T) fs₁ := by
  have happ : applyOpts envf p flds [] (inferOpts pfx flds 0)
      = .err (.unsupportedType T) fs₁ := by
    rw [hsplit, applyOpts_append_ok opts₁ hok]
    simp only [applyOpts, optSet, hunsup, setStep]
  simp only [Load, inferOptions, ConfigArg.fieldsOf, happ]

/-- Witness for C5, mirroring `TestUnsupportedType`: a single field of
the unsupported defined type `structopt.T`, no environment, no flags. -/
theorem c5_unsupported_type_witness :
    Load "APP" (.ptrStruct "structopt.Test" [⟨"T", true, .vunsup "structopt.T"⟩])
      ⟨lookupEnv [], [], testParsers⟩ false
      = .err (.unsupportedType "structopt.T") [⟨"T", true, .vunsup "structopt.T"⟩] :=
  c5_unsupported_type_fails "APP" "structopt.Test" "structopt.T" (lookupEnv [])
    testParsers [] false [⟨"T", true, .vunsup "structopt.T"⟩]
    [⟨"T", true, .vunsup "structopt.T"⟩] [] [] [] ⟨0, "APP_T", "T", ""⟩
    (by decide) (by decide) (by decide)

/-- Claim C7: `Load` applies descriptors in declaration order, stops at
the first per-field error and returns it, and the error-time state
agrees with the already-applied state everywhere except possibly the
failing descriptor's own field — no rollback of earlier fields. -/
theorem c7_fail_fast_no_rollback (pfx tn : String) (envf : String → String)
    (p : Parsers) (args : List (String × String)) (hasFlags : Bool)
    (flds fs₁ fs₂ : List Field) (rs₁ : List Reg) (opts₁ opts₂ : List Opt)
    (o : Opt) (e : GoError)
    (hsplit : inferOpts pfx flds 0 = opts₁ ++ o :: opts₂)
    (hok : applyOpts envf p flds [] opts₁ = .ok fs₁ rs₁)
    (herr : optSet envf p fs₁ o = .err e fs₂) :
    Load pfx (.ptrStruct tn flds) ⟨envf, args, p⟩ hasFlags = .err e fs₂
    ∧ ∀ j, j ≠ o.idx → getVal fs₂ j = getVal fs₁ j := by
  refine ⟨?_, optSet_err_frame herr⟩
  have happ : applyOpts envf p flds [] (inferOpts pfx flds 0) = .err e fs₂ := by
    rw [hsplit, applyOpts_append_ok opts₁ hok]
    simp only [applyOpts, herr]
  simp only [Load, inferOptions, ConfigArg.fieldsOf, happ]

/-- Witness for C7: field `a` (int, default 1, `APP_A=7`) applies before
field `b` of an unsupported type fails; the returned state keeps `a`'s
environment-overridden value 7. -/
theorem c7_fail_fast_witness :
    Load "APP" (.ptrStruct "main.Config"
      [⟨"a", true, .vint 1⟩, ⟨"b", true, .vunsup "main.T"⟩])
      ⟨lookupEnv [("APP_A", "7")], [], testParsers⟩ false
      = .err (.unsupportedType "main.T")
        [⟨"a", true, .vint 7⟩, ⟨"b", true, .vunsup "main.T"⟩] :=
  (c7_fail_fast_no_rollback "APP" "main.Config" (lookupEnv [("APP_A", "7")])
    testParsers [] false
    [⟨"a", true, .vint 1⟩, ⟨"b", true, .vunsup "main.T"⟩]
    [⟨"a", true, .vint 7⟩, ⟨"b", true, .vunsup "main.T"⟩]
    [⟨"a", true, .vint 7⟩, ⟨"b", true, .vunsup "main.T"⟩]
    [⟨"a", 0, .rint⟩] [⟨0, "APP_A", "a", ""⟩] [] ⟨1, "APP_B", "b", ""⟩
    (.unsupportedType "main.T")
    (by decide) (by decide) (by decide)).1

/-- Claim C8: with a nil flag collaborator (`hasFlags = false`), `Load`
returns the pure environment-and-default binding, the process argument
list has no effect whatsoever on the result, and every descriptor was
still registered (one registration per descriptor, in order, named after
its flag name and backed by its field). -/
theorem c8_nil_flagset_env_only (pfx tn : String) (envf : String → String)
    (p : Parsers) (args args' : List (String × String))
    (flds fs : List Field) (regs : List Reg)
    (h : applyOpts envf p flds [] (inferOpts pfx flds 0) = .ok fs regs) :
    Load pfx (.ptrStruct tn flds) ⟨envf, args, p⟩ false = .ok fs regs
    ∧ Load pfx (.ptrStruct tn flds) ⟨envf, args', p⟩ false = .ok fs regs
    ∧ regs.map (fun r => (r.name, r.idx))
      = (inferOpts pfx flds 0).map (fun o => (o.flagName, o.idx)) := by
  refine ⟨?_, ?_, ?_⟩
  · simp [Load, inferOptions, ConfigArg.fieldsOf, h]
  · simp [Load, inferOptions, ConfigArg.fieldsOf, h]
  · simpa using applyOpts_ok_regs (inferOpts pfx flds 0) h

/-- Witness for C8: same environment binding, two different argument
lists, identical results; the single descriptor is registered. -/
theorem c8_nil_flagset_witness :
    Load "APP" (.ptrStruct "main.Config" [⟨"int", true, .vint 5⟩])
      ⟨lookupEnv [("APP_INT", "25")], [("int", "50")], testParsers⟩ false
      = .ok [⟨"int", true, .vint 25⟩] [⟨"int", 0, .rint⟩]
    ∧ Load "APP" (.ptrStruct "main.Config" [⟨"int", true, .vint 5⟩])
      ⟨lookupEnv [("APP_INT", "25")], [("int", "999")], testParsers⟩ false
      = .ok [⟨"int", true, .vint 25⟩] [⟨"int", 0, .rint⟩]
    ∧ ([⟨"int", 0, .rint⟩] : List Reg).map (fun r => (r.name, r.idx))
      = (inferOpts "APP" [⟨"int", true, .vint 5⟩] 0).map (fun o => (o.flagName, o.idx)) :=
  c8_nil_flagset_env_only "APP" "main.Config" (lookupEnv [("APP_INT", "25")])
    testParsers [("int", "50")] [("int", "999")] [⟨"int", true, .vint 5⟩]
    [⟨"int", true, .vint 25⟩] [⟨"int", 0, .rint⟩] (by decide)

/-- Claim C9: every descriptor the Introspector produces points at a
settable field with a non-empty `opt` tag (so untagged or unsettable
fields yield no descriptor and no error), and a record with no such
field yields the empty descriptor sequence with a nil error. -/
theorem c9_untagged_unsettable_skipped (pfx tn : String) (flds : List Field) :
    (∀ o ∈ inferOpts pfx flds 0,
      ∃ f, flds.get? o.idx = some f ∧ f.settable = true ∧ f.tag ≠ "")
    ∧ ((∀ f ∈ flds, f.settable = false ∨ f.tag = "") →
      inferOptions pfx (.ptrStruct tn flds) = .ok []) := by
  constructor
  · intro o ho
    obtain ⟨-, f, h2, h3⟩ := inferOpts_mem flds 0 o ho
    exact ⟨f, by simpa using h2, h3⟩
  · intro h
    simp only [inferOptions, inferOpts_none flds 0 h]

/-- Witness for C9: one untagged field and one unexported field produce
an empty descriptor sequence and no error. -/
theorem c9_skip_witness :
    inferOptions "APP" (.ptrStruct "main.Config"
      [⟨"", true, .vint 0⟩, ⟨"x", false, .vstr ""⟩]) = .ok [] :=
  (c9_untagged_unsettable_skipped "APP" "main.Config"
    [⟨"", true, .vint 0⟩, ⟨"x", false, .vstr ""⟩]).2 (by decide)

/-- Claim C10 (amended): for every strconv/time-parsed kind, when the
environment variable holds non-empty (after trimming) text on which the
parser errs, `Load` returns the parse error naming the variable, the
value and the underlying error, and the field's storage holds the
parser's failure result `vE` — the type's zero value for syntax errors,
the clamped boundary value for range errors — not the restored struct
default. -/
theorem c10_parse_error_leaves_parser_result (pfx tag tn E : String)
    (envf : String → String) (p : Parsers) (args : List (String × String))
    (hasFlags : Bool) (v vE : GoVal) (be : BaseErr) (rk : RegKind)
    (_hkind : isStrconvKind v = true)
    (htag : tag ≠ "")
    (htrim : trimSpace E ≠ "")
    (henv : envf (pfx ++ envSep ++ normalizeTag tag) = E)
    (hstep : setStep p v E = .stepped vE (some be) rk) :
    Load pfx (.ptrStruct tn [⟨tag, true, v⟩]) ⟨envf, args, p⟩ hasFlags
      = .err (.parseError (pfx ++ envSep ++ normalizeTag tag) E be)
        [⟨tag, true, vE⟩] := by
  have hopts : inferOpts pfx [⟨tag, true, v⟩] 0
      = [⟨0, pfx ++ envSep ++ normalizeTag tag, tag, ""⟩] := by
    simp [inferOpts, htag]
  have hset : optSet envf p [⟨tag, true, v⟩]
      ⟨0, pfx ++ envSep ++ normalizeTag tag, tag, ""⟩
      = .err (.parseError (pfx ++ envSep ++ normalizeTag tag) E be)
        [⟨tag, true, vE⟩] := by
    simp only [optSet, getVal, henv, hstep, setVal]
    rw [if_pos htrim]
  simp only [Load, inferOptions, ConfigArg.fieldsOf, hopts, applyOpts, hset]

/-- Witness for C10 at the int kind, mirroring `TestInvalidVavlue`:
`APP_N=foo` is a syntax error, so the field ends at `Atoi`'s zero
result. -/
theorem c10_parse_error_witness :
    Load "APP" (.ptrStruct "main.Config" [⟨"n", true, .vint 5⟩])
      ⟨lookupEnv [("APP_N", "foo")], [], testParsers⟩ false
      = .err (.parseError "APP_N" "foo" (.num ⟨"Atoi", "foo", .syn⟩))
        [⟨"n", true, .vint 0⟩] :=
  c10_parse_error_leaves_parser_result "APP" "n" "main.Config" "foo"
    (lookupEnv [("APP_N", "foo")]) testParsers [] false (.vint 5) (.vint 0)
    (.num ⟨"Atoi", "foo", .syn⟩) .rint
    (by decide) (by decide) (by decide) (by decide) (by decide)

/-- Claim C10 counterexample to the literal "zero value" reading: with
`APP_N` holding twenty nines, `Load` returns the range parse error, but
the int field's storage now holds `strconv`'s clamped result
9223372036854775807 (`maxInt64`), not the type's zero value. -/
theorem c10_zero_value_counterexample :
    Load "APP" (.ptrStruct "main.Config" [⟨"n", true, .vint 5⟩])
      (mkCollab [("APP_N", "99999999999999999999")] []) false
      = .err (.parseError "APP_N" "99999999999999999999"
          (.num ⟨"Atoi", "99999999999999999999", .range⟩))
        [⟨"n", true, .vint 9223372036854775807⟩]
    ∧ (9223372036854775807 : Int) ≠ 0 :=
  ⟨rfl, by decide⟩

end Structopt
